import Mathlib

/-!
Verification of the MyOmniCodeReview test-generation evaluation pipeline.

This file gives a shallow embedding of the parts of the repository that the
verified properties speak about:

* `src/mswebench_run_evaluation_GenTests.py`:
  - `run_instances` (final report aggregation over the per-phase harness
    reports, lines 367-421),
  - `run_with_timeout` (the bounded subprocess monitor loop, lines 188-249),
  - `create_multiswebench_config` (patch-file generation and the worker-limit
    fields of the generated configuration, lines 113-186);
* `src/patch_application.py`: `apply_patch` / `runCommand` (lines 14-49).

The per-phase reports produced by the external Multi-SWE-Bench harness
(`./multiswebench_local/multi_swe_bench/harness/run_evaluation.py`, not part
of this repository's sources) are modelled abstractly as three id lists
(`resolved_ids`, `unresolved_ids`, `error_ids`), which is exactly the data
`run_instances` reads out of them.
-/

/-- A per-phase harness report, as read by `run_instances`:
`report.get("resolved_ids", [])`, `report.get("unresolved_ids", [])` and
`report.get("error_ids", [])`. -/
structure MswReport where
  resolved_ids : List String
  unresolved_ids : List String
  error_ids : List String
deriving DecidableEq, Repr

/-- The final report written by `run_instances` (lines 408-417):
`bad_patches_results.EXPECTED_FAIL.success/.failure` and
`gold_tests_status.EXPECTED_PASS.success/.failure`. -/
structure FinalReport where
  ef_success : List String
  ef_failure : List String
  ep_success : List String
  ep_failure : List String
deriving DecidableEq, Repr

/-- The tag `f"bad_patch_{i}_of_{id}"` built at lines 400 and 403. -/
def badPatchTag (i : Nat) (id : String) : String :=
  "bad_patch_" ++ toString i ++ "_of_" ++ id

/-- Per-iteration contribution of bad-patch phase `i` to the
`bad_patch_successes` accumulator (line 403): the report's unresolved ids
that are not error ids, tagged. -/
def badSuccList : Nat → List (Option MswReport) → List String
  | _, [] => []
  | i, none :: rest => badSuccList (i + 1) rest
  | i, some rep :: rest =>
      ((rep.unresolved_ids.filter (fun id => !(rep.error_ids.contains id))).map
        (badPatchTag i)) ++ badSuccList (i + 1) rest

/-- Per-iteration contribution of bad-patch phase `i` to the
`bad_patch_failures` accumulator (lines 400-401): the report's resolved ids,
tagged. -/
def badFailList : Nat → List (Option MswReport) → List String
  | _, [] => []
  | i, none :: rest => badFailList (i + 1) rest
  | i, some rep :: rest =>
      (rep.resolved_ids.map (badPatchTag i)) ++ badFailList (i + 1) rest

/-- The final report assembled by `run_instances` (lines 367-369 and
397-417) from the gold phase report and the indexed bad-patch phase
reports.  `none` models a phase whose `run_instance` call produced no
report (the `if report:` guards at lines 367 and 397 then skip the phase).
Note the key assignment of lines 408-417: the `bad_patch_failures`
accumulator is written under the `EXPECTED_FAIL` `success` key and the
`bad_patch_successes` accumulator under the `failure` key. -/
def run_instances_report (goldReport : Option MswReport)
    (badReports : List (Option MswReport)) : FinalReport :=
  let gold := match goldReport with
    | some r => (r.resolved_ids, r.unresolved_ids)
    | none => ([], [])
  { ef_success := badFailList 0 badReports
    ef_failure := badSuccList 0 badReports
    ep_success := gold.1
    ep_failure := gold.2 }

/-- A child process as observed by `run_with_timeout`: `runtime` is the
number of one-second polling iterations after which `process.poll()` stops
returning `None`, `returncode` its exit code, and the line lists carry the
polling second at which each output line becomes readable. -/
structure Proc where
  runtime : Nat
  returncode : Int
  stdoutLines : List (Nat × String)
  stderrLines : List (Nat × String)
deriving DecidableEq, Repr

/-- The observable outcome of `run_with_timeout`: the returned triple
`(stdout, stderr, returncode)`, the elapsed polling seconds at return, and
the content of the local `stdout_lines` accumulator at return. -/
structure RunOutcome where
  result : Option String × String × Int
  elapsed : Nat
  captured_stdout : List String
deriving DecidableEq, Repr

/-- Lines becoming readable during polling second `t`. -/
def arrivedAt (ls : List (Nat × String)) (t : Nat) : List String :=
  (ls.filter (fun q => q.1 == t)).map (fun q => q.2)

/-- Lines not yet read when the monitor loop exits at second `t`
(drained by the `for line in process.stdout` loops at lines 230-236). -/
def arrivedFrom (ls : List (Nat × String)) (t : Nat) : List String :=
  (ls.filter (fun q => t ≤ q.1)).map (fun q => q.2)

/-- The `while process.poll() is None` monitor loop of `run_with_timeout`
(lines 209-245), at one-second polling granularity (the `select` call blocks
for up to 1.0 s per iteration).  `fuel` is the number of polling seconds the
process still has to run, so the loop guard `process.poll() is None`
corresponds to `fuel ≠ 0`; `t` is `time.time() - start_time`.  The timeout
branch (lines 211-214) kills the process and returns
`(None, "Timeout exceeded", 1)`, discarding the accumulated lines; the
normal exit drains the remaining output and returns the joined streams with
the process exit code (lines 229-245). -/
def monitorGo (p : Proc) (timeout_seconds : Int) :
    Nat → Nat → List String → List String → RunOutcome
  | 0, t, accOut, accErr =>
      let outAll := accOut ++ arrivedFrom p.stdoutLines t
      let errAll := accErr ++ arrivedFrom p.stderrLines t
      { result := (some (String.join outAll), String.join errAll, p.returncode)
        elapsed := t
        captured_stdout := outAll }
  | fuel + 1, t, accOut, accErr =>
      if 0 < timeout_seconds ∧ timeout_seconds < (t : Int) then
        { result := (none, "Timeout exceeded", 1)
          elapsed := t
          captured_stdout := accOut }
      else
        monitorGo p timeout_seconds fuel (t + 1)
          (accOut ++ arrivedAt p.stdoutLines t)
          (accErr ++ arrivedAt p.stderrLines t)

/-- `run_with_timeout(cmd, timeout_seconds)` (lines 188-249).  The launch
either raises (the `except Exception` handler at lines 247-249 returns
`(None, str(e), 1)`) or yields a process that the monitor loop observes. -/
def run_with_timeout (launch : Except String Proc) (timeout_seconds : Int) :
    RunOutcome :=
  match launch with
  | Except.error e => { result := (none, e, 1), elapsed := 0, captured_stdout := [] }
  | Except.ok p => monitorGo p timeout_seconds p.runtime 0 [] []

/-- The command runner of `src/patch_application.py` (lines 14-20, named
run_cmd there; that name is reserved in Lean): run the command, raise
`RuntimeError(result.stderr)` on a non-zero exit code, return the
captured stdout otherwise.  `exec` maps a command line to
`(returncode, stdout, stderr)`. -/
def runCommand (exec : List String → Int × String × String) (cmd : List String) :
    Except String String :=
  let r := exec cmd
  if r.1 ≠ 0 then Except.error r.2.2 else Except.ok r.2.1

/-- `apply_patch` of `src/patch_application.py` (lines 37-49): try
`git apply` first; only on a `RuntimeError` retry with `git apply --3way`;
a failure of the retry propagates.  The second component records the
commands issued, in order. -/
def apply_patch (exec : List String → Int × String × String)
    (tmp_patch_path : String) : Except String Unit × List (List String) :=
  match runCommand exec ["git", "apply", tmp_patch_path] with
  | Except.ok _ => (Except.ok (), [["git", "apply", tmp_patch_path]])
  | Except.error _ =>
      match runCommand exec ["git", "apply", "--3way", tmp_patch_path] with
      | Except.ok _ =>
          (Except.ok (),
            [["git", "apply", tmp_patch_path],
             ["git", "apply", "--3way", tmp_patch_path]])
      | Except.error e =>
          (Except.error e,
            [["git", "apply", tmp_patch_path],
             ["git", "apply", "--3way", tmp_patch_path]])

/-- The worker-limit fields of the configuration dictionary built by
`create_multiswebench_config` (lines 158-179): `max_workers` is passed
through, and both `max_workers_build_image` and `max_workers_run_instance`
are set to `max(1, max_workers // 2)` (Python floor division). -/
structure MswConfigWorkers where
  max_workers : Int
  max_workers_build_image : Int
  max_workers_run_instance : Int
deriving DecidableEq, Repr

/-- The worker-limit fields as computed at lines 172-174. -/
def create_multiswebench_config_workers (max_workers : Int) : MswConfigWorkers :=
  { max_workers := max_workers
    max_workers_build_image := max 1 (Int.fdiv max_workers 2)
    max_workers_run_instance := max 1 (Int.fdiv max_workers 2) }

/-- A bad-patch entry of a prediction (`item.get("bad_patches", [])[k]["patch"]`). -/
structure BadPatch where
  patch : String
deriving DecidableEq, Repr

/-- The fields of a prediction read by the patch-file loop of
`create_multiswebench_config` (lines 128-151). -/
structure Prediction where
  bad_patches : List BadPatch
  gold_patch : String
deriving DecidableEq, Repr

/-- One record of the generated `{run_id}_patches.jsonl` file (lines
137-151). -/
structure PatchData where
  org : String
  repo : String
  number : String
  fix_patch : String
deriving DecidableEq, Repr

/-- `instance.split("__")[0]` (line 130). -/
def orgOf (instanceId : String) : String :=
  (instanceId.splitOn "__").headD ""

/-- `instance.split("_")[-2]` (line 131); Python raises for an id without
an underscore, which no claim exercises. -/
def repoOf (instanceId : String) : String :=
  let parts := instanceId.splitOn "_"
  (parts.get? (parts.length - 2)).getD ""

/-- `instance.split("_")[-1]` (line 133). -/
def numberOf (instanceId : String) : String :=
  (instanceId.splitOn "_").getLastD ""

/-- Python list indexing `bad_patch[i]`, with negative indexes counting
from the end (only `0 ≤ i` is exercised by the callers, which pass the
loop index of `range(max_bad_patches)`). -/
def pyGet (l : List BadPatch) (i : Int) : Option BadPatch :=
  if 0 ≤ i then l.get? i.toNat else l.get? (l.length + i).toNat

/-- The records the patch-file loop of `create_multiswebench_config`
(lines 128-151) writes for one prediction.  With `bad_patch_index != -1`
a record is written only when `bad_patch_index < len(bad_patches)`
(line 136); otherwise the instance is skipped without any output.  With
`bad_patch_index == -1` the gold patch is written.  The `none` branch of
the inner match is unreachable for `0 ≤ bad_patch_index`: the guard makes
the indexing succeed. -/
def patchRecordsForInstance (bad_patch_index : Int)
    (inst : String × Prediction) : List PatchData :=
  let instanceId := inst.1
  let item := inst.2
  if bad_patch_index ≠ -1 then
    if bad_patch_index < (item.bad_patches.length : Int) then
      match pyGet item.bad_patches bad_patch_index with
      | some bp =>
          [{ org := orgOf instanceId, repo := repoOf instanceId,
             number := numberOf instanceId, fix_patch := bp.patch }]
      | none => []
    else []
  else
    [{ org := orgOf instanceId, repo := repoOf instanceId,
       number := numberOf instanceId, fix_patch := item.gold_patch }]

/-- The whole generated patch file: one loop iteration per prediction, in
order (line 128). -/
def patchFileRecords (predictions : List (String × Prediction))
    (bad_patch_index : Int) : List PatchData :=
  predictions.flatMap (patchRecordsForInstance bad_patch_index)

/-- Decimal digits of `n`, most significant first, by value recursion; used
only to reason about `Nat.repr` inside the `badPatchTag` string. -/
def reprDigits (n : Nat) : List Char :=
  if n < 10 then [Nat.digitChar n]
  else reprDigits (n / 10) ++ [Nat.digitChar (n % 10)]
decreasing_by exact Nat.div_lt_self (by omega) (by omega)

theorem reprDigits_lt (n : Nat) (h : n < 10) : reprDigits n = [Nat.digitChar n] := by
  rw [reprDigits, if_pos h]

theorem reprDigits_ge (n : Nat) (h : ¬ n < 10) :
    reprDigits n = reprDigits (n / 10) ++ [Nat.digitChar (n % 10)] := by
  rw [reprDigits]
  exact if_neg h

theorem digitChar_ge_16 (n : Nat) (h : 16 ≤ n) : Nat.digitChar n = '*' := by
  unfold Nat.digitChar
  repeat rw [if_neg (show ¬ _ = _ by omega)]

theorem digitChar_ne_underscore (n : Nat) : Nat.digitChar n ≠ '_' := by
  by_cases h : n < 16
  · interval_cases n <;> decide
  · rw [digitChar_ge_16 n (by omega)]; decide

theorem digitChar_inj_lt : ∀ a < 10, ∀ b < 10,
    Nat.digitChar a = Nat.digitChar b → a = b := by decide

theorem toDigitsCore_eq_reprDigits :
    ∀ (fuel n : Nat) (ds : List Char), n < fuel →
      Nat.toDigitsCore 10 fuel n ds = reprDigits n ++ ds := by
  intro fuel
  induction fuel with
  | zero => intro n ds h; omega
  | succ f ih =>
    intro n ds h
    unfold Nat.toDigitsCore
    by_cases h10 : n / 10 = 0
    · have hlt : n < 10 := by
        by_contra hc
        have : 10 / 10 ≤ n / 10 := Nat.div_le_div_right (by omega)
        simp at this
        omega
      rw [if_pos h10, reprDigits_lt n hlt, Nat.mod_eq_of_lt hlt]
      simp
    · have hge : 10 ≤ n := by
        by_contra hc
        exact h10 (Nat.div_eq_of_lt (by omega))
      have hlt' : n / 10 < n := Nat.div_lt_self (by omega) (by omega)
      have hrec : n / 10 < f := by omega
      rw [if_neg h10, ih (n / 10) _ hrec, reprDigits_ge n (by omega)]
      simp

theorem toDigits_eq_reprDigits (n : Nat) :
    Nat.toDigits 10 n = reprDigits n := by
  unfold Nat.toDigits
  rw [toDigitsCore_eq_reprDigits (n + 1) n [] (Nat.lt_succ_self n)]
  simp

theorem reprDigits_ne_nil (n : Nat) : reprDigits n ≠ [] := by
  by_cases h : n < 10
  · rw [reprDigits_lt n h]; simp
  · rw [reprDigits_ge n h]; simp

theorem mem_reprDigits (n : Nat) (c : Char) (h : c ∈ reprDigits n) :
    ∃ m, c = Nat.digitChar m := by
  induction n using Nat.strong_induction_on with
  | _ n ih =>
    by_cases hlt : n < 10
    · rw [reprDigits_lt n hlt] at h
      simp at h
      exact ⟨n, h⟩
    · rw [reprDigits_ge n hlt] at h
      rcases List.mem_append.1 h with h1 | h1
      · exact ih (n / 10) (Nat.div_lt_self (by omega) (by omega)) h1
      · simp at h1
        exact ⟨n % 10, h1⟩

theorem reprDigits_inj : ∀ a b : Nat, reprDigits a = reprDigits b → a = b := by
  intro a
  induction a using Nat.strong_induction_on with
  | _ a ih =>
    intro b h
    by_cases ha : a < 10 <;> by_cases hb : b < 10
    · rw [reprDigits_lt a ha, reprDigits_lt b hb] at h
      simp at h
      exact digitChar_inj_lt a ha b hb h
    · rw [reprDigits_lt a ha, reprDigits_ge b hb] at h
      have hlen := congrArg List.length h
      simp at hlen
      exact absurd hlen (reprDigits_ne_nil _)
    · rw [reprDigits_ge a ha, reprDigits_lt b hb] at h
      have hlen := congrArg List.length h
      simp at hlen
      exact absurd hlen (reprDigits_ne_nil _)
    · rw [reprDigits_ge a ha, reprDigits_ge b hb] at h
      obtain ⟨h1, h2⟩ := List.append_inj' h (by simp)
      have hd : a / 10 = b / 10 :=
        ih (a / 10) (Nat.div_lt_self (by omega) (by omega)) (b / 10) h1
      simp at h2
      have hm : a % 10 = b % 10 :=
        digitChar_inj_lt _ (Nat.mod_lt a (by omega)) _ (Nat.mod_lt b (by omega)) h2
      omega

theorem repr_data (n : Nat) : (Nat.repr n).data = reprDigits n := by
  show (Nat.toDigits 10 n).asString.data = reprDigits n
  rw [toDigits_eq_reprDigits]
  rfl

theorem repr_inj (a b : Nat) (h : Nat.repr a = Nat.repr b) : a = b := by
  apply reprDigits_inj
  rw [← repr_data, ← repr_data, h]

theorem repr_no_underscore (n : Nat) (c : Char) (h : c ∈ (Nat.repr n).data) :
    c ≠ '_' := by
  rw [repr_data] at h
  obtain ⟨m, rfl⟩ := mem_reprDigits n c h
  exact digitChar_ne_underscore m

theorem string_data_append (a b : String) : (a ++ b).data = a.data ++ b.data := by
  rfl

theorem string_eq_of_data (a b : String) (h : a.data = b.data) : a = b := by
  cases a
  cases b
  exact congrArg String.mk h

theorem append_underscore_inj :
    ∀ (l1 l2 r1 r2 : List Char), (∀ c ∈ l1, c ≠ '_') → (∀ c ∈ l2, c ≠ '_') →
      l1 ++ '_' :: r1 = l2 ++ '_' :: r2 → l1 = l2 ∧ r1 = r2 := by
  intro l1
  induction l1 with
  | nil =>
    intro l2 r1 r2 _ hu2 h
    cases l2 with
    | nil => simpa using h
    | cons c l2' =>
      simp at h
      exact absurd h.1.symm (hu2 c (by simp))
  | cons a l1' ih =>
    intro l2 r1 r2 hu1 hu2 h
    cases l2 with
    | nil =>
      simp at h
      exact absurd h.1 (hu1 a (by simp))
    | cons c l2' =>
      simp at h
      obtain ⟨hac, htl⟩ := h
      obtain ⟨h1, h2⟩ := ih l2' r1 r2 (fun x hx => hu1 x (by simp [hx]))
        (fun x hx => hu2 x (by simp [hx])) htl
      exact ⟨by rw [hac, h1], h2⟩

theorem badPatchTag_inj (i j : Nat) (a b : String)
    (h : badPatchTag i a = badPatchTag j b) : i = j ∧ a = b := by
  unfold badPatchTag at h
  have hd := congrArg String.data h
  rw [string_data_append, string_data_append, string_data_append,
    string_data_append, string_data_append, string_data_append] at hd
  simp only [List.append_assoc] at hd
  have hcan : (toString i).data ++ ("_of_".data ++ a.data)
      = (toString j).data ++ ("_of_".data ++ b.data) :=
    List.append_cancel_left hd
  have hof : ("_of_".data : List Char) = '_' :: 'o' :: 'f' :: '_' :: [] := rfl
  rw [hof] at hcan
  simp only [List.cons_append, List.nil_append] at hcan
  have hsplit := append_underscore_inj (toString i).data (toString j).data
    ('o' :: 'f' :: '_' :: a.data) ('o' :: 'f' :: '_' :: b.data)
    (fun c hc => repr_no_underscore i c hc)
    (fun c hc => repr_no_underscore j c hc)
    hcan
  obtain ⟨h1, h2⟩ := hsplit
  refine ⟨repr_inj i j (string_eq_of_data _ _ h1), ?_⟩
  simp at h2
  exact string_eq_of_data a b h2

theorem contains_eq_false_iff (l : List String) (a : String) :
    l.contains a = false ↔ a ∉ l := by
  simp [List.contains]

theorem mem_badFailList :
    ∀ (rs : List (Option MswReport)) (i0 : Nat) (s : String),
      s ∈ badFailList i0 rs ↔
        ∃ k rep, rs.get? k = some (some rep) ∧
          ∃ id, id ∈ rep.resolved_ids ∧ s = badPatchTag (i0 + k) id := by
  intro rs
  induction rs with
  | nil => intro i0 s; simp [badFailList]
  | cons r rest ih =>
    intro i0 s
    cases r with
    | none =>
      simp only [badFailList]
      rw [ih (i0 + 1) s]
      constructor
      · rintro ⟨k, rep, hget, id, hid, hs⟩
        refine ⟨k + 1, rep, by simpa using hget, id, hid, ?_⟩
        rw [hs]
        congr 1
        omega
      · rintro ⟨k, rep, hget, id, hid, hs⟩
        cases k with
        | zero => simp at hget
        | succ k' =>
          refine ⟨k', rep, by simpa using hget, id, hid, ?_⟩
          rw [hs]
          congr 1
          omega
    | some rep0 =>
      simp only [badFailList, List.mem_append, List.mem_map]
      rw [ih (i0 + 1) s]
      constructor
      · rintro (⟨id, hid, hs⟩ | ⟨k, rep, hget, id, hid, hs⟩)
        · exact ⟨0, rep0, by simp, id, hid, by simp [hs.symm]⟩
        · refine ⟨k + 1, rep, by simpa using hget, id, hid, ?_⟩
          rw [hs]
          congr 1
          omega
      · rintro ⟨k, rep, hget, id, hid, hs⟩
        cases k with
        | zero =>
          simp at hget
          subst hget
          exact Or.inl ⟨id, hid, by simp [hs]⟩
        | succ k' =>
          refine Or.inr ⟨k', rep, by simpa using hget, id, hid, ?_⟩
          rw [hs]
          congr 1
          omega

theorem mem_badSuccList :
    ∀ (rs : List (Option MswReport)) (i0 : Nat) (s : String),
      s ∈ badSuccList i0 rs ↔
        ∃ k rep, rs.get? k = some (some rep) ∧
          ∃ id, id ∈ rep.unresolved_ids ∧ (rep.error_ids.contains id) = false ∧
            s = badPatchTag (i0 + k) id := by
  intro rs
  induction rs with
  | nil => intro i0 s; simp [badSuccList]
  | cons r rest ih =>
    intro i0 s
    cases r with
    | none =>
      simp only [badSuccList]
      rw [ih (i0 + 1) s]
      constructor
      · rintro ⟨k, rep, hget, id, hid, herr, hs⟩
        refine ⟨k + 1, rep, by simpa using hget, id, hid, herr, ?_⟩
        rw [hs]
        congr 1
        omega
      · rintro ⟨k, rep, hget, id, hid, herr, hs⟩
        cases k with
        | zero => simp at hget
        | succ k' =>
          refine ⟨k', rep, by simpa using hget, id, hid, herr, ?_⟩
          rw [hs]
          congr 1
          omega
    | some rep0 =>
      simp only [badSuccList, List.mem_append, List.mem_map, List.mem_filter]
      rw [ih (i0 + 1) s]
      constructor
      · rintro (⟨id, ⟨hid, herr⟩, hs⟩ | ⟨k, rep, hget, id, hid, herr, hs⟩)
        · refine ⟨0, rep0, by simp, id, hid, ?_, by simp [hs.symm]⟩
          simpa using herr
        · refine ⟨k + 1, rep, by simpa using hget, id, hid, herr, ?_⟩
          rw [hs]
          congr 1
          omega
      · rintro ⟨k, rep, hget, id, hid, herr, hs⟩
        cases k with
        | zero =>
          simp at hget
          subst hget
          refine Or.inl ⟨id, ⟨hid, ?_⟩, by simp [hs]⟩
          simpa using herr
        | succ k' =>
          refine Or.inr ⟨k', rep, by simpa using hget, id, hid, herr, ?_⟩
          rw [hs]
          congr 1
          omega

theorem monitorGo_completes (p : Proc) (ts : Int) :
    ∀ (fuel t : Nat) (accOut accErr : List String),
      ¬ (0 < ts ∧ ts + 1 < ((t + fuel : Nat) : Int)) →
      (monitorGo p ts fuel t accOut accErr).elapsed = t + fuel ∧
      ∃ out err, (monitorGo p ts fuel t accOut accErr).result
        = (some out, err, p.returncode) := by
  intro fuel
  induction fuel with
  | zero =>
    intro t accOut accErr _
    exact ⟨by simp [monitorGo], _, _, rfl⟩
  | succ f ih =>
    intro t accOut accErr h
    have hc : ¬ (0 < ts ∧ ts < (t : Int)) := by
      rintro ⟨h1, h2⟩
      apply h
      refine ⟨h1, ?_⟩
      push_cast
      omega
    rw [monitorGo, if_neg hc]
    have := ih (t + 1) (accOut ++ arrivedAt p.stdoutLines t)
      (accErr ++ arrivedAt p.stderrLines t) (by
        intro hcon
        apply h
        refine ⟨hcon.1, ?_⟩
        have := hcon.2
        push_cast at this ⊢
        omega)
    refine ⟨?_, this.2⟩
    rw [this.1]
    omega

theorem monitorGo_kills (p : Proc) (ts : Int) (h1 : 0 < ts) :
    ∀ (fuel t : Nat) (accOut accErr : List String),
      (t : Int) ≤ ts + 1 → ts + 1 < ((t + fuel : Nat) : Int) →
      monitorGo p ts fuel t accOut accErr =
        { result := (none, "Timeout exceeded", 1)
          elapsed := ts.toNat + 1
          captured_stdout :=
            accOut ++ (List.range' t (ts.toNat + 1 - t)).flatMap
              (arrivedAt p.stdoutLines) } := by
  intro fuel
  induction fuel with
  | zero =>
    intro t accOut accErr ht hfuel
    push_cast at hfuel
    omega
  | succ f ih =>
    intro t accOut accErr ht hfuel
    have htn : (ts.toNat : Int) = ts := Int.toNat_of_nonneg (by omega)
    by_cases hkill : (t : Int) = ts + 1
    · rw [monitorGo, if_pos ⟨h1, by omega⟩]
      have h0 : ts.toNat + 1 - t = 0 := by omega
      have h2 : t = ts.toNat + 1 := by omega
      rw [h0, h2]
      simp [List.range']
    · have hlt : (t : Int) < ts + 1 := lt_of_le_of_ne ht hkill
      have hnk : ¬ (0 < ts ∧ ts < (t : Int)) := by
        rintro ⟨_, hx⟩
        omega
      rw [monitorGo, if_neg hnk]
      rw [ih (t + 1) (accOut ++ arrivedAt p.stdoutLines t)
        (accErr ++ arrivedAt p.stderrLines t)
        (by push_cast; omega) (by push_cast at hfuel ⊢; omega)]
      have hrange : ts.toNat + 1 - t = (ts.toNat + 1 - (t + 1)) + 1 := by omega
      congr 1
      rw [hrange, List.range'_succ]
      simp

theorem patchRecordsForInstance_length (i : Int) (hi : 0 ≤ i)
    (q : String × Prediction) :
    (patchRecordsForInstance i q).length
      = if i < (q.2.bad_patches.length : Int) then 1 else 0 := by
  unfold patchRecordsForInstance
  rw [if_pos (show i ≠ -1 by omega)]
  by_cases hlt : i < (q.2.bad_patches.length : Int)
  · rw [if_pos hlt, if_pos hlt]
    have ht : i.toNat < q.2.bad_patches.length := by omega
    rw [pyGet, if_pos hi, List.get?_eq_get ht]
    simp
  · rw [if_neg hlt, if_neg hlt]
    rfl

/-- C1 (counterexample): with a gold report resolving instance `x` and the
bad-patch-0 report also resolving `x` (the bad variant's tests passed), the
entry `bad_patch_0_of_x` does not appear in the final report's
`EXPECTED_FAIL` `failure` list — it is written to the `success` list
instead, so the claim's required placement fails. -/
theorem rejected_entry_not_in_failure_list :
    "x" ∈ (⟨["x"], [], []⟩ : MswReport).resolved_ids ∧
    "x" ∈ (⟨["x"], [], []⟩ : MswReport).resolved_ids ∧
    "bad_patch_0_of_x" ∉
      (run_instances_report (some ⟨["x"], [], []⟩)
        [some ⟨["x"], [], []⟩]).ef_failure ∧
    "bad_patch_0_of_x" ∈
      (run_instances_report (some ⟨["x"], [], []⟩)
        [some ⟨["x"], [], []⟩]).ef_success := by
  decide

/-- C1 (amended): if the bad-patch-`i` phase report resolves instance `id`
(its tests passed on the bad fix), then the final report records the
violation as the entry `bad_patch_{i}_of_{id}` — but under the
`EXPECTED_FAIL` `success` key, because lines 408-411 write the
`bad_patch_failures` accumulator under `success`; no separate verdict field
exists. -/
theorem passing_bad_variant_listed_under_success_key
    (goldReport : Option MswReport) (badReports : List (Option MswReport))
    (i : Nat) (rep : MswReport) (id : String)
    (hget : badReports.get? i = some (some rep))
    (hpassed : id ∈ rep.resolved_ids) :
    badPatchTag i id ∈ (run_instances_report goldReport badReports).ef_success := by
  show badPatchTag i id ∈ badFailList 0 badReports
  rw [mem_badFailList]
  exact ⟨i, rep, hget, id, hpassed, by rw [Nat.zero_add]⟩

/-- Witness for `passing_bad_variant_listed_under_success_key` at a
concrete run. -/
theorem passing_bad_variant_listed_under_success_key_witness :
    badPatchTag 0 "x" ∈
      (run_instances_report (some ⟨["x"], [], []⟩)
        [some ⟨["x"], [], []⟩]).ef_success :=
  passing_bad_variant_listed_under_success_key (some ⟨["x"], [], []⟩)
    [some ⟨["x"], [], []⟩] 0 ⟨["x"], [], []⟩ "x" rfl (by simp)

/-- C2 (counterexample): with a gold report resolving instance `x` and the
bad-patch-0 report listing `x` unresolved without error (the bad variant's
tests failed, the accepted case), the entry `bad_patch_0_of_x` does not
appear in the final report's `EXPECTED_FAIL` `success` list — it is written
to the `failure` list instead, so the claim's required placement fails. -/
theorem accepted_entry_not_in_success_list :
    "x" ∈ (⟨["x"], [], []⟩ : MswReport).resolved_ids ∧
    "x" ∈ (⟨[], ["x"], []⟩ : MswReport).unresolved_ids ∧
    "bad_patch_0_of_x" ∉
      (run_instances_report (some ⟨["x"], [], []⟩)
        [some ⟨[], ["x"], []⟩]).ef_success ∧
    "bad_patch_0_of_x" ∈
      (run_instances_report (some ⟨["x"], [], []⟩)
        [some ⟨[], ["x"], []⟩]).ef_failure := by
  decide

/-- C2 (amended): an instance whose gold run passed (resolved, not
unresolved) and all of whose bad-variant runs failed (unresolved, not
resolved, not errored) is listed in the gold `EXPECTED_PASS` `success`
list and not in its `failure` list, and every one of its bad variants is
listed in the `EXPECTED_FAIL` `failure` list with none of them in the
`EXPECTED_FAIL` `success` list — the success/failure keys of the
`EXPECTED_FAIL` section hold the opposite of what their names suggest. -/
theorem accepted_instance_listing
    (gold : MswReport) (badReports : List (Option MswReport)) (id : String)
    (hg : id ∈ gold.resolved_ids) (hgu : id ∉ gold.unresolved_ids)
    (hall : ∀ j rep, badReports.get? j = some (some rep) →
      id ∉ rep.resolved_ids ∧ id ∈ rep.unresolved_ids ∧ id ∉ rep.error_ids) :
    id ∈ (run_instances_report (some gold) badReports).ep_success ∧
    id ∉ (run_instances_report (some gold) badReports).ep_failure ∧
    (∀ j rep, badReports.get? j = some (some rep) →
      badPatchTag j id ∈ (run_instances_report (some gold) badReports).ef_failure) ∧
    (∀ j : Nat, badPatchTag j id ∉
      (run_instances_report (some gold) badReports).ef_success) := by
  refine ⟨hg, hgu, ?_, ?_⟩
  · intro j rep hget
    show badPatchTag j id ∈ badSuccList 0 badReports
    rw [mem_badSuccList]
    obtain ⟨-, hu, he⟩ := hall j rep hget
    exact ⟨j, rep, hget, id, hu, (contains_eq_false_iff _ _).2 he, by rw [Nat.zero_add]⟩
  · intro j hmem
    rw [show (run_instances_report (some gold) badReports).ef_success
        = badFailList 0 badReports from rfl, mem_badFailList] at hmem
    obtain ⟨k, rep, hget, id2, hid2, heq⟩ := hmem
    obtain ⟨-, hideq⟩ := badPatchTag_inj j (0 + k) id id2 heq
    subst hideq
    exact (hall k rep hget).1 hid2

/-- Witness for `accepted_instance_listing` at a concrete run. -/
theorem accepted_instance_listing_witness :
    "x" ∈ (run_instances_report (some ⟨["x"], [], []⟩)
      [some ⟨[], ["x"], []⟩]).ep_success ∧
    badPatchTag 0 "x" ∈
      (run_instances_report (some ⟨["x"], [], []⟩)
        [some ⟨[], ["x"], []⟩]).ef_failure := by
  have h := accepted_instance_listing ⟨["x"], [], []⟩ [some ⟨[], ["x"], []⟩] "x"
    (by simp) (by simp)
    (by
      intro j rep hget
      cases j with
      | zero =>
        simp at hget
        subst hget
        exact ⟨by simp, by simp, by simp⟩
      | succ j2 => simp at hget)
  exact ⟨h.1, h.2.2.1 0 ⟨[], ["x"], []⟩ rfl⟩

/-- C3 (counterexample): an instance whose gold run ended in an error
status (it is in the gold report's `error_ids` and, as the bad-patch
branch's own `error_ids` filtering presumes, also in its `unresolved_ids`)
is recorded in the final report's `EXPECTED_PASS` `failure` list, i.e.
exactly like a gold test failure — the gold branch (lines 367-369) applies
no error filtering. -/
theorem gold_error_recorded_as_test_failure :
    "x" ∈ (⟨[], ["x"], ["x"]⟩ : MswReport).error_ids ∧
    "x" ∈ (run_instances_report (some ⟨[], ["x"], ["x"]⟩) []).ep_failure := by
  decide

/-- C3 (amended): a bad variant whose run ended in an error status (listed
in that phase report's `error_ids`, not resolved) contributes to neither
the `EXPECTED_FAIL` `success` nor the `failure` list of the final report
(line 403 filters `error_ids` out), but a gold run with an error status
that the harness lists among `unresolved_ids` is recorded in the
`EXPECTED_PASS` `failure` list, indistinguishably from an ordinary gold
test failure. -/
theorem error_variant_contribution
    (gold : MswReport) (badReports : List (Option MswReport))
    (i : Nat) (rep : MswReport) (id : String)
    (hget : badReports.get? i = some (some rep))
    (herr : id ∈ rep.error_ids) (hres : id ∉ rep.resolved_ids)
    (_hgerr : id ∈ gold.error_ids) (hgu : id ∈ gold.unresolved_ids) :
    badPatchTag i id ∉ (run_instances_report (some gold) badReports).ef_success ∧
    badPatchTag i id ∉ (run_instances_report (some gold) badReports).ef_failure ∧
    id ∈ (run_instances_report (some gold) badReports).ep_failure := by
  refine ⟨?_, ?_, hgu⟩
  · intro hmem
    rw [show (run_instances_report (some gold) badReports).ef_success
        = badFailList 0 badReports from rfl, mem_badFailList] at hmem
    obtain ⟨k, rep2, hget2, id2, hid2, heq⟩ := hmem
    obtain ⟨hik, hideq⟩ := badPatchTag_inj i (0 + k) id id2 heq
    subst hideq
    rw [Nat.zero_add] at hik
    subst hik
    rw [hget] at hget2
    have hrep : rep = rep2 := Option.some.inj (Option.some.inj hget2)
    subst hrep
    exact hres hid2
  · intro hmem
    rw [show (run_instances_report (some gold) badReports).ef_failure
        = badSuccList 0 badReports from rfl, mem_badSuccList] at hmem
    obtain ⟨k, rep2, hget2, id2, hid2, herr2, heq⟩ := hmem
    obtain ⟨hik, hideq⟩ := badPatchTag_inj i (0 + k) id id2 heq
    subst hideq
    rw [Nat.zero_add] at hik
    subst hik
    rw [hget] at hget2
    have hrep : rep = rep2 := Option.some.inj (Option.some.inj hget2)
    subst hrep
    exact (contains_eq_false_iff _ _).1 herr2 herr

/-- Witness for `error_variant_contribution` at a concrete run. -/
theorem error_variant_contribution_witness :
    badPatchTag 0 "x" ∉
      (run_instances_report (some ⟨[], ["x"], ["x"]⟩)
        [some ⟨[], ["x"], ["x"]⟩]).ef_failure ∧
    "x" ∈ (run_instances_report (some ⟨[], ["x"], ["x"]⟩)
        [some ⟨[], ["x"], ["x"]⟩]).ep_failure := by
  have h := error_variant_contribution ⟨[], ["x"], ["x"]⟩
    [some ⟨[], ["x"], ["x"]⟩] 0 ⟨[], ["x"], ["x"]⟩ "x" rfl
    (by simp) (by simp) (by simp) (by simp)
  exact ⟨h.2.1, h.2.2⟩

/-- C4 (counterexample): running a 60-second process under a 5-second
timeout, the monitor kills it at the deadline but returns
`(None, "Timeout exceeded", 1)`: the `stdout_lines` captured before the
kill (here one line) are discarded, not returned. -/
theorem timeout_discards_captured_output :
    (run_with_timeout (Except.ok ⟨60, 0, [(1, "partial output")], []⟩) 5).captured_stdout
      = ["partial output"] ∧
    (run_with_timeout (Except.ok ⟨60, 0, [(1, "partial output")], []⟩) 5).result.1
      = none ∧
    (run_with_timeout (Except.ok ⟨60, 0, [(1, "partial output")], []⟩) 5).elapsed
      = 6 := by
  decide

/-- C4 (amended): when `0 < timeout_seconds` and the process runs past the
deadline (`timeout_seconds + 1 < runtime`), `run_with_timeout` kills the
process at elapsed time `timeout_seconds + 1` (approximately the deadline,
not the process runtime) and returns the fixed triple
`(None, "Timeout exceeded", 1)`; the output captured up to the kill (the
lines of the first `timeout_seconds + 1` polling seconds) is discarded
rather than returned. -/
theorem run_with_timeout_kill_behavior (p : Proc) (ts : Int)
    (h1 : 0 < ts) (h2 : ts + 1 < (p.runtime : Int)) :
    (run_with_timeout (Except.ok p) ts).result = (none, "Timeout exceeded", 1) ∧
    (run_with_timeout (Except.ok p) ts).elapsed = ts.toNat + 1 ∧
    (run_with_timeout (Except.ok p) ts).captured_stdout
      = (List.range (ts.toNat + 1)).flatMap (arrivedAt p.stdoutLines) := by
  have h := monitorGo_kills p ts h1 p.runtime 0 [] [] (by omega)
    (by push_cast; omega)
  show (monitorGo p ts p.runtime 0 [] []).result = _ ∧
    (monitorGo p ts p.runtime 0 [] []).elapsed = _ ∧
    (monitorGo p ts p.runtime 0 [] []).captured_stdout = _
  rw [h]
  refine ⟨rfl, rfl, ?_⟩
  rw [List.range_eq_range']
  simp

/-- Witness for `run_with_timeout_kill_behavior` at a concrete run. -/
theorem run_with_timeout_kill_behavior_witness :
    (run_with_timeout (Except.ok ⟨60, 0, [(1, "partial output")], []⟩) 5).result
      = (none, "Timeout exceeded", 1) :=
  (run_with_timeout_kill_behavior ⟨60, 0, [(1, "partial output")], []⟩ 5
    (by decide) (by decide)).1

/-- C5 (confirmed): a launch failure (the harness exception path of
`run_with_timeout`, lines 247-249) yields a result whose stdout component
is `None`, while a command that started and ran to completion with a
non-zero exit code yields a result with a string stdout component and its
own exit code; the two results are never equal. -/
theorem infra_error_distinct_from_test_failure
    (e : String) (p : Proc) (ts : Int)
    (hdone : ¬ (0 < ts ∧ ts + 1 < (p.runtime : Int))) (_hfail : p.returncode ≠ 0) :
    (run_with_timeout (Except.error e) ts).result.1 = none ∧
    (∃ out, (run_with_timeout (Except.ok p) ts).result.1 = some out) ∧
    (run_with_timeout (Except.error e) ts).result
      ≠ (run_with_timeout (Except.ok p) ts).result := by
  obtain ⟨hel, out, err, hres⟩ := monitorGo_completes p ts p.runtime 0 [] []
    (by
      intro hcon
      apply hdone
      refine ⟨hcon.1, ?_⟩
      have := hcon.2
      push_cast at this ⊢
      omega)
  have hok : (run_with_timeout (Except.ok p) ts).result
      = (some out, err, p.returncode) := hres
  refine ⟨rfl, ⟨out, by rw [hok]⟩, ?_⟩
  intro hcontra
  rw [hok] at hcontra
  have : (none : Option String) = some out := congrArg Prod.fst hcontra
  exact Option.noConfusion this

/-- Witness for `infra_error_distinct_from_test_failure` at a concrete
launch failure and a concrete failing command. -/
theorem infra_error_distinct_from_test_failure_witness :
    (run_with_timeout (Except.error "could not start") 1800).result
      ≠ (run_with_timeout (Except.ok ⟨3, 2, [], []⟩) 1800).result :=
  (infra_error_distinct_from_test_failure "could not start" ⟨3, 2, [], []⟩ 1800
    (by decide) (by decide)).2.2

/-- C6 (counterexample): `run_instances` writes its final report even when
the phases produced no harness report (the `if report:` guards then leave
`success_dict` empty), so for a two-instance run all four id lists of the
final report are empty: whatever per-category counts are read off the
report, they sum to 0, not to the number of instances. -/
theorem report_counts_do_not_sum_to_total :
    ¬ ((run_instances_report none []).ep_success.length
        + (run_instances_report none []).ep_failure.length
        + (run_instances_report none []).ef_success.length
        + (run_instances_report none []).ef_failure.length
        = (["instA", "instB"] : List String).length) := by
  decide

/-- C6 (amended): the final report contains no verdict field and no
accepted/rejected/inconclusive counts; its only per-instance classification
is the pair of gold `EXPECTED_PASS` lists, which copy the gold phase
report's `resolved_ids`/`unresolved_ids` verbatim.  When a gold report
exists and its two lists form a permutation of the (duplicate-free) run
instances, every instance lands in exactly one of the two gold lists and
the two list lengths sum to the instance total. -/
theorem gold_lists_partition_instances
    (instances : List String) (gold : MswReport)
    (badReports : List (Option MswReport))
    (hnd : instances.Nodup)
    (hperm : (gold.resolved_ids ++ gold.unresolved_ids).Perm instances) :
    ((run_instances_report (some gold) badReports).ep_success
        ++ (run_instances_report (some gold) badReports).ep_failure).Perm instances ∧
    (run_instances_report (some gold) badReports).ep_success.length
      + (run_instances_report (some gold) badReports).ep_failure.length
      = instances.length ∧
    ∀ id ∈ instances,
      (id ∈ (run_instances_report (some gold) badReports).ep_success
        ↔ id ∉ (run_instances_report (some gold) badReports).ep_failure) := by
  have hs : (run_instances_report (some gold) badReports).ep_success
      = gold.resolved_ids := rfl
  have hf : (run_instances_report (some gold) badReports).ep_failure
      = gold.unresolved_ids := rfl
  rw [hs, hf]
  have hnd2 : (gold.resolved_ids ++ gold.unresolved_ids).Nodup :=
    hperm.nodup_iff.2 hnd
  rw [List.nodup_append] at hnd2
  obtain ⟨-, -, hdisj⟩ := hnd2
  refine ⟨hperm, ?_, ?_⟩
  · have := hperm.length_eq
    simpa using this
  · intro id hid
    have hmem : id ∈ gold.resolved_ids ++ gold.unresolved_ids :=
      hperm.mem_iff.2 hid
    constructor
    · intro h1 h2
      exact hdisj h1 h2
    · intro h2
      rcases List.mem_append.1 hmem with h | h
      · exact h
      · exact absurd h h2

/-- Witness for `gold_lists_partition_instances` at a concrete run. -/
theorem gold_lists_partition_instances_witness :
    (run_instances_report (some ⟨["x"], ["y"], []⟩) []).ep_success.length
      + (run_instances_report (some ⟨["x"], ["y"], []⟩) []).ep_failure.length
      = (["x", "y"] : List String).length :=
  (gold_lists_partition_instances ["x", "y"] ⟨["x"], ["y"], []⟩ []
    (by decide) (by decide)).2.1

/-- C7 (counterexample): the configuration built by
`create_multiswebench_config` offers no setting under which the image-build
worker limit differs from the instance-run worker limit — both fields are
computed as `max(1, max_workers // 2)` from the single `max_workers` knob,
so they are not independently tunable. -/
theorem worker_limits_cannot_differ :
    ¬ ∃ mw : Int, (create_multiswebench_config_workers mw).max_workers_build_image
      ≠ (create_multiswebench_config_workers mw).max_workers_run_instance := by
  rintro ⟨mw, h⟩
  exact h rfl

/-- C7 (amended): both worker limits of the generated configuration are
determined by the single `max_workers` parameter: they are always equal to
each other, always positive, and the build limit determines the run limit
and conversely. -/
theorem worker_limits_single_knob :
    (∀ mw : Int, (create_multiswebench_config_workers mw).max_workers_run_instance
      = (create_multiswebench_config_workers mw).max_workers_build_image) ∧
    (∀ mw : Int,
      1 ≤ (create_multiswebench_config_workers mw).max_workers_build_image) ∧
    (∀ mw mw2 : Int,
      (create_multiswebench_config_workers mw).max_workers_build_image
        = (create_multiswebench_config_workers mw2).max_workers_build_image
      ↔ (create_multiswebench_config_workers mw).max_workers_run_instance
        = (create_multiswebench_config_workers mw2).max_workers_run_instance) :=
  ⟨fun _ => rfl, fun mw => le_max_left 1 (Int.fdiv mw 2), fun _ _ => Iff.rfl⟩

/-- C8 (confirmed): `apply_patch` always issues the strict `git apply`
first; it issues the fuzzy `git apply --3way` exactly when the strict
attempt failed; if the strict attempt succeeds it stops after one command
with a success; and if both attempts fail it ends in the error of the
second attempt (the uncaught `RuntimeError`), never a silent success. -/
theorem apply_patch_strict_then_fuzzy
    (exec : List String → Int × String × String) (tmp : String) :
    ((apply_patch exec tmp).2.head? = some ["git", "apply", tmp]) ∧
    (∀ out, runCommand exec ["git", "apply", tmp] = Except.ok out →
      apply_patch exec tmp = (Except.ok (), [["git", "apply", tmp]])) ∧
    (∀ e, runCommand exec ["git", "apply", tmp] = Except.error e →
      (apply_patch exec tmp).2
        = [["git", "apply", tmp], ["git", "apply", "--3way", tmp]]) ∧
    (∀ e e2, runCommand exec ["git", "apply", tmp] = Except.error e →
      runCommand exec ["git", "apply", "--3way", tmp] = Except.error e2 →
      (apply_patch exec tmp).1 = Except.error e2) := by
  refine ⟨?_, ?_, ?_, ?_⟩
  · unfold apply_patch
    rcases hs : runCommand exec ["git", "apply", tmp] with e | out
    · rcases hf : runCommand exec ["git", "apply", "--3way", tmp] with e2 | o2 <;>
        simp
    · simp
  · intro out h
    simp [apply_patch, h]
  · intro e h
    simp only [apply_patch, h]
    rcases hf : runCommand exec ["git", "apply", "--3way", tmp] with e2 | o2 <;>
      simp
  · intro e e2 h hf
    simp [apply_patch, h, hf]

/-- Witness for `apply_patch_strict_then_fuzzy`: an environment in which
both the strict and the fuzzy application fail propagates the second
error. -/
theorem apply_patch_strict_then_fuzzy_witness :
    (apply_patch (fun c => ((1 : Int), "",
      if c.length == 3 then "strict failed" else "fuzzy failed")) "p").1
      = Except.error "fuzzy failed" :=
  (apply_patch_strict_then_fuzzy
    (fun c => ((1 : Int), "",
      if c.length == 3 then "strict failed" else "fuzzy failed")) "p").2.2.2
    "strict failed" "fuzzy failed" rfl rfl

/-- C9 (confirmed): with a non-positive `timeout_seconds` the timeout
branch of the monitor loop is unreachable: the process runs for its full
duration no matter how long, and the returned result is the normal one
(a string stdout and the process exit code), never the timeout triple. -/
theorem nonpositive_timeout_disables_deadline (p : Proc) (ts : Int)
    (h : ts ≤ 0) :
    (run_with_timeout (Except.ok p) ts).elapsed = p.runtime ∧
    ∃ out err, (run_with_timeout (Except.ok p) ts).result
      = (some out, err, p.returncode) := by
  have := monitorGo_completes p ts p.runtime 0 [] []
    (by rintro ⟨h1, -⟩; omega)
  simpa using this

/-- Witness for `nonpositive_timeout_disables_deadline`: a 120-second
process under timeout 0 runs the full 120 seconds. -/
theorem nonpositive_timeout_disables_deadline_witness :
    (run_with_timeout (Except.ok ⟨120, 0, [], []⟩) 0).elapsed = 120 :=
  (nonpositive_timeout_disables_deadline ⟨120, 0, [], []⟩ 0 (by decide)).1

/-- C10 (confirmed): in a bad-patch-index-`i` run (`0 ≤ i`), the patch-file
loop of `create_multiswebench_config` writes no record for an instance
whose bad-patch list has length at most `i` (it is silently skipped), and
exactly one record, carrying `bad_patches[i].patch`, for an instance whose
list is longer; over a whole prediction list the file length is the number
of predictions having a bad patch at index `i`. -/
theorem bad_patch_index_record_generation
    (instanceId : String) (item : Prediction) (i : Int) (hi : 0 ≤ i) :
    ((item.bad_patches.length : Int) ≤ i →
      patchRecordsForInstance i (instanceId, item) = []) ∧
    (i < (item.bad_patches.length : Int) →
      ∃ bp, item.bad_patches.get? i.toNat = some bp ∧
        patchRecordsForInstance i (instanceId, item)
          = [{ org := orgOf instanceId, repo := repoOf instanceId,
               number := numberOf instanceId, fix_patch := bp.patch }]) ∧
    ((patchRecordsForInstance i (instanceId, item)).length
      = if i < (item.bad_patches.length : Int) then 1 else 0) ∧
    (∀ predictions : List (String × Prediction),
      (patchFileRecords predictions i).length
        = (predictions.filter
            (fun q => decide (i < (q.2.bad_patches.length : Int)))).length) := by
  refine ⟨?_, ?_, patchRecordsForInstance_length i hi (instanceId, item), ?_⟩
  · intro hle
    unfold patchRecordsForInstance
    dsimp only
    rw [if_pos (show i ≠ -1 by omega),
      if_neg (show ¬ i < (item.bad_patches.length : Int) by omega)]
  · intro hlt
    have ht : i.toNat < item.bad_patches.length := by omega
    refine ⟨item.bad_patches.get ⟨i.toNat, ht⟩, List.get?_eq_get ht, ?_⟩
    unfold patchRecordsForInstance pyGet
    dsimp only
    rw [if_pos (show i ≠ -1 by omega),
      if_pos (show i < (item.bad_patches.length : Int) from hlt),
      if_pos hi, List.get?_eq_get ht]
  · intro predictions
    induction predictions with
    | nil => rfl
    | cons q rest ihp =>
      show (patchRecordsForInstance i q ++ patchFileRecords rest i).length = _
      rw [List.length_append, ihp, patchRecordsForInstance_length i hi q]
      by_cases hq : i < (q.2.bad_patches.length : Int)
      · rw [if_pos hq, List.filter_cons_of_pos (by simpa using hq)]
        simp [Nat.add_comm]
      · rw [if_neg hq, List.filter_cons_of_neg (by simpa using hq)]
        simp

/-- Witness for `bad_patch_index_record_generation`: an instance with a
single bad patch contributes no record to the index-1 patch file. -/
theorem bad_patch_index_record_generation_witness :
    patchRecordsForInstance 1 ("org__repo_5", ⟨[⟨"bp0"⟩], "gold"⟩) = [] :=
  (bad_patch_index_record_generation "org__repo_5" ⟨[⟨"bp0"⟩], "gold"⟩ 1
    (by decide)).1 (by decide)
